import Mathlib

attribute [local semireducible] Rat.add Rat.mul Rat.sub Rat.inv

set_option maxRecDepth 1000000

/-!
Shallow embedding of `internal::minres` and the `MINRES` wrapper from
`Eigen/src/IterativeLinearSolvers/MINRES.h`.

Vectors are functions `Fin N → ℚ`; the matrix and the preconditioner are
opaque operators `Vec N → Vec N` (the kernel only ever forms `mat*w` and
`precond.solve(v)`).  The square root of the scalar type is an opaque
parameter `sq : ℚ → ℚ` (the C++ code uses `std::sqrt` / `std::pow(·,0.5)` on
`RealScalar`); concrete runs instantiate it with `ratSqrt`, which is exact on
rationals that are squares of rationals — every square root reached in the
concrete runs below is of that form.

Instrumentation carried in the state, inert to the numerics:
`matApplies` / `precondSolves` count the operator and preconditioner calls,
`bodyRuns` counts loop-body executions, `divZero` records whether any
division site had a zero divisor, and `r1`, `r1_hat` record the most recent
Givens denominators (locals in the C++).  The C++ locals that are read
before ever being written (`p` from line 75, `beta` from line 61 via
`norm_rMR=beta` at line 78, and the never-read-before-write `v_old`, `w`,
plus `residualNorm2` when the loop body never runs) are supplied as the
`Uninit` record of indeterminate values.
-/

abbrev Vec (N : Nat) := Fin N → ℚ

def vadd {N : Nat} (a b : Vec N) : Vec N := fun i => a i + b i

def vsub {N : Nat} (a b : Vec N) : Vec N := fun i => a i - b i

def smul {N : Nat} (c : ℚ) (a : Vec N) : Vec N := fun i => c * a i

def vdiv {N : Nat} (a : Vec N) (c : ℚ) : Vec N := fun i => a i / c

def vzero (N : Nat) : Vec N := fun _ => 0

def dot {N : Nat} (a b : Vec N) : ℚ := ∑ i, a i * b i

def norm2 {N : Nat} (a : Vec N) : ℚ := dot a a

/-- The state of one `minres` invocation: every local of the C++ routine,
plus the instrumentation fields described above. -/
@[ext]
structure MinresState (N : Nat) where
  x : Vec N
  v_old : Vec N
  v : Vec N
  v_new : Vec N
  w : Vec N
  w_new : Vec N
  p : Vec N
  p_old : Vec N
  p_oold : Vec N
  beta : ℚ
  beta_new : ℚ
  c : ℚ
  c_old : ℚ
  s : ℚ
  s_old : ℚ
  eta : ℚ
  norm_rMR : ℚ
  norm_r0 : ℚ
  residualNorm2 : ℚ
  r1 : ℚ
  r1_hat : ℚ
  n : Nat
  matApplies : Nat
  precondSolves : Nat
  bodyRuns : Nat
  divZero : Bool

/-- Indeterminate values of the C++ locals that are declared without an
initializer (`v_old(N)`, `w(N)`, `p(N)`, `beta`, `residualNorm2`). -/
structure Uninit (N : Nat) where
  v_old : Vec N
  w : Vec N
  p : Vec N
  beta : ℚ
  residualNorm2 : ℚ

/-- Lines 41-86 of MINRES.h: everything before the `while` loop. -/
def minresInit {N : Nat} (sq : ℚ → ℚ) (A : Vec N → Vec N) (b x0 : Vec N)
    (precond : Vec N → Vec N) (u : Uninit N) : MinresState N :=
  let residual := vsub b (A x0)
  let v_new0 := residual
  let w_new0 := precond v_new0
  let beta_new := sq (dot v_new0 w_new0)
  { x := x0
    v_old := u.v_old
    v := vzero N
    v_new := vdiv v_new0 beta_new
    w := u.w
    w_new := vdiv w_new0 beta_new
    p := u.p
    p_old := vzero N
    p_oold := vzero N
    beta := u.beta
    beta_new := beta_new
    c := 1
    c_old := 1
    s := 0
    s_old := 0
    eta := 1
    norm_rMR := u.beta
    norm_r0 := u.beta
    residualNorm2 := u.residualNorm2
    r1 := 0
    r1_hat := 0
    n := 0
    matApplies := 1
    precondSolves := 1
    bodyRuns := 0
    divZero := decide (beta_new = 0) }

/-- Lines 100-157 of MINRES.h: the loop body up to and including the
recomputation of `residualNorm2`, before the convergence test. -/
def minresStep {N : Nat} (sq : ℚ → ℚ) (A : Vec N → Vec N) (b : Vec N)
    (precond : Vec N → Vec N) (st : MinresState N) : MinresState N :=
  let beta := st.beta_new
  let v_old := st.v
  let v := st.v_new
  let w := st.w_new
  let Aw := A w
  let v_new1 := vsub Aw (smul beta v_old)
  let alpha := dot v_new1 w
  let v_new2 := vsub v_new1 (smul alpha v)
  let w_new1 := precond v_new2
  let beta_new := sq (dot v_new2 w_new1)
  let v_new := vdiv v_new2 beta_new
  let w_new := vdiv w_new1 beta_new
  let r2 := st.s * alpha + st.c * st.c_old * beta
  let r3 := st.s_old * beta
  let r1_hat := st.c * alpha - st.c_old * st.s * beta
  let r1 := sq (r1_hat * r1_hat + beta_new * beta_new)
  let c_old := st.c
  let s_old := st.s
  let c := r1_hat / r1
  let s := beta / r1
  let p_oold := st.p_old
  let p_old := st.p
  let p := vdiv (vsub (vsub w (smul r2 p_old)) (smul r3 p_oold)) r1
  let x := vadd st.x (smul (c * st.eta) p)
  let norm_rMR := st.norm_rMR * |s|
  let residualNorm2 := norm2 (vsub (A x) b)
  { x := x
    v_old := v_old
    v := v
    v_new := v_new
    w := w
    w_new := w_new
    p := p
    p_old := p_old
    p_oold := p_oold
    beta := beta
    beta_new := beta_new
    c := c
    c_old := c_old
    s := s
    s_old := s_old
    eta := st.eta
    norm_rMR := norm_rMR
    norm_r0 := st.norm_r0
    residualNorm2 := residualNorm2
    r1 := r1
    r1_hat := r1_hat
    n := st.n
    matApplies := st.matApplies + 2
    precondSolves := st.precondSolves + 1
    bodyRuns := st.bodyRuns + 1
    divZero := st.divZero || decide (beta_new = 0) || decide (r1 = 0) }

/-- Lines 163-164 of MINRES.h: the tail of the loop body that only runs when
the convergence test did not break out of the loop. -/
def minresAdvance {N : Nat} (st : MinresState N) : MinresState N :=
  { st with eta := -st.s * st.eta, n := st.n + 1 }

/-- The `while (n < maxIters)` loop of lines 87-165, as fuel recursion.
`minres` passes fuel `maxIters + 1`, which the loop can never exhaust since
every recursive call increments `n`. -/
def minresLoop {N : Nat} (sq : ℚ → ℚ) (A : Vec N → Vec N) (b : Vec N)
    (precond : Vec N → Vec N) (maxIters : Nat) (th2 : ℚ) :
    Nat → MinresState N → MinresState N
  | 0, st => st
  | fuel + 1, st =>
    if st.n < maxIters then
      let stepped := minresStep sq A b precond st
      if stepped.residualNorm2 < th2 then stepped
      else minresLoop sq A b precond maxIters th2 fuel (minresAdvance stepped)
    else st

/-- Line 45 of MINRES.h: `threshold2 = tol_error*tol_error*rhsNorm2`. -/
def minresThreshold2 {N : Nat} (tol : ℚ) (b : Vec N) : ℚ :=
  tol * tol * norm2 b

structure MinresResult (N : Nat) where
  x : Vec N
  iters : Nat
  tol_error : ℚ
  divZero : Bool
  final : MinresState N

/-- `internal::minres` (lines 31-168): initialization, the loop, and the
final writes `tol_error = sqrt(residualNorm2/rhsNorm2)`, `iters = n`. -/
def minres {N : Nat} (sq : ℚ → ℚ) (A : Vec N → Vec N) (b x0 : Vec N)
    (precond : Vec N → Vec N) (u : Uninit N) (maxIters : Nat) (tol : ℚ) :
    MinresResult N :=
  let rhsNorm2 := norm2 b
  let st0 := minresInit sq A b x0 precond u
  let stF := minresLoop sq A b precond maxIters (minresThreshold2 tol b)
    (maxIters + 1) st0
  { x := stF.x
    iters := stF.n
    tol_error := sq (stF.residualNorm2 / rhsNorm2)
    divZero := stF.divZero || decide (rhsNorm2 = 0)
    final := stF }

/-- Line 316 of MINRES.h: `x.setOnes()`. -/
def setOnes (N : Nat) : Vec N := fun _ => 1

/-- `MINRES::_solveWithGuess` for one right-hand-side column: resets the
iteration/tolerance configuration and calls the kernel. -/
def minresSolveWithGuess {N : Nat} (sq : ℚ → ℚ) (A : Vec N → Vec N)
    (precond : Vec N → Vec N) (u : Uninit N) (maxIters : Nat) (tol : ℚ)
    (b x0 : Vec N) : MinresResult N :=
  minres sq A b x0 precond u maxIters tol

/-- `MINRES::_solve` (lines 314-318): sets the guess to all ones, then
delegates to `_solveWithGuess`. -/
def minresSolve {N : Nat} (sq : ℚ → ℚ) (A : Vec N → Vec N)
    (precond : Vec N → Vec N) (u : Uninit N) (maxIters : Nat) (tol : ℚ)
    (b : Vec N) : MinresResult N :=
  minresSolveWithGuess sq A precond u maxIters tol b (setOnes N)

/-- Largest `k ≤ bound` with `k * k ≤ n` (structural recursion so that the
kernel can evaluate it). -/
def isqrtAux (n : Nat) : Nat → Nat
  | 0 => 0
  | k + 1 => if (k + 1) * (k + 1) ≤ n then k + 1 else isqrtAux n k

/-- Exact square root on rationals whose numerator and denominator are
perfect squares; used to instantiate `sq` on concrete runs where every
reached square root is of that form. -/
def ratSqrt (q : ℚ) : ℚ :=
  (isqrtAux q.num.toNat q.num.toNat : ℚ) / (isqrtAux q.den q.den : ℚ)

/-! ### Concrete instances

`exA` is the symmetric operator of the matrix `diag(25, 0)`, `exb = (3, 4)`,
the guess is `0` and the preconditioner is the identity.  Every square root
reached during one loop iteration on this input is exact:
`sqrt 25 = 5` (initialization), `sqrt 144 = 12` (`beta_new`), and
`sqrt 225 = 15` (`r1`), so the `ratSqrt` run reproduces the exact-arithmetic
trace of the C++ routine on this input. -/

def exA : Vec 2 → Vec 2 := fun v => fun i => if i = 0 then 25 * v 0 else 0

def exb : Vec 2 := fun i => if i = 0 then 3 else 4

/-- Indeterminate locals all read as zero. -/
def exU0 : Uninit 2 :=
  { v_old := vzero 2, w := vzero 2, p := vzero 2, beta := 0, residualNorm2 := 0 }

/-- Same indeterminate locals, except the never-initialized `p` reads as the
all-ones vector. -/
def exU1 : Uninit 2 :=
  { v_old := vzero 2, w := vzero 2, p := fun _ => 1, beta := 0, residualNorm2 := 0 }

/-- Same indeterminate locals, except `residualNorm2` reads as `1`. -/
def exUg : Uninit 2 :=
  { v_old := vzero 2, w := vzero 2, p := vzero 2, beta := 0, residualNorm2 := 1 }

/-- One iteration on `diag(25,0)`, `b = (3,4)`, `x0 = 0`, garbage read as 0. -/
def exRun0 : MinresResult 2 := minres ratSqrt exA exb (vzero 2) id exU0 1 0

/-- The same call, with the uninitialized `p` reading as all ones. -/
def exRun1 : MinresResult 2 := minres ratSqrt exA exb (vzero 2) id exU1 1 0

/-- Zero iteration budget, uninitialized `residualNorm2` reading as `1`. -/
def cRun : MinresResult 2 := minres ratSqrt exA exb (vzero 2) id exUg 0 0

/-- The 1x1 identity operator. -/
def exA1 : Vec 1 → Vec 1 := fun v => v

/-- A call with zero right-hand side: `A = [1]`, `b = 0`, `x0 = 0`. -/
def zRun : MinresResult 1 :=
  minres ratSqrt exA1 (vzero 1) (vzero 1) id
    { v_old := vzero 1, w := vzero 1, p := vzero 1, beta := 0, residualNorm2 := 0 } 1 (1/2)

/-- The state invariant behind the returned error estimate: the
`residualNorm2` field is the true squared residual of the current `x`. -/
def residOK {N : Nat} (A : Vec N → Vec N) (b : Vec N) (st : MinresState N) : Prop :=
  st.residualNorm2 = norm2 (vsub (A st.x) b)

/-! ### Helper lemmas -/

theorem minresStep_n {N : Nat} (sq : ℚ → ℚ) (A : Vec N → Vec N) (b : Vec N)
    (pc : Vec N → Vec N) (st : MinresState N) :
    (minresStep sq A b pc st).n = st.n := rfl

theorem minresStep_bodyRuns {N : Nat} (sq : ℚ → ℚ) (A : Vec N → Vec N) (b : Vec N)
    (pc : Vec N → Vec N) (st : MinresState N) :
    (minresStep sq A b pc st).bodyRuns = st.bodyRuns + 1 := rfl

theorem minresAdvance_n {N : Nat} (st : MinresState N) :
    (minresAdvance st).n = st.n + 1 := rfl

theorem minresAdvance_bodyRuns {N : Nat} (st : MinresState N) :
    (minresAdvance st).bodyRuns = st.bodyRuns := rfl

theorem minresStep_residOK {N : Nat} (sq : ℚ → ℚ) (A : Vec N → Vec N) (b : Vec N)
    (pc : Vec N → Vec N) (st : MinresState N) :
    residOK A b (minresStep sq A b pc st) := rfl

theorem minresAdvance_residOK {N : Nat} (A : Vec N → Vec N) (b : Vec N)
    (st : MinresState N) (h : residOK A b st) :
    residOK A b (minresAdvance st) := h

/-- One unfolding of the `while` loop. -/
theorem minresLoop_succ {N : Nat} (sq : ℚ → ℚ) (A : Vec N → Vec N) (b : Vec N)
    (pc : Vec N → Vec N) (k : Nat) (th2 : ℚ) (fuel : Nat) (st : MinresState N) :
    minresLoop sq A b pc k th2 (fuel + 1) st
      = if st.n < k then
          (if (minresStep sq A b pc st).residualNorm2 < th2
           then minresStep sq A b pc st
           else minresLoop sq A b pc k th2 fuel (minresAdvance (minresStep sq A b pc st)))
        else st := rfl

/-- The loop body neither runs more often than `maxIters` nor lets `n`
exceed `maxIters`. -/
theorem minresLoop_bounds {N : Nat} (sq : ℚ → ℚ) (A : Vec N → Vec N) (b : Vec N)
    (pc : Vec N → Vec N) (k : Nat) (th2 : ℚ) :
    ∀ (fuel : Nat) (st : MinresState N), st.bodyRuns ≤ st.n → st.n ≤ k →
      (minresLoop sq A b pc k th2 fuel st).bodyRuns ≤ k ∧
      (minresLoop sq A b pc k th2 fuel st).n ≤ k := by
  intro fuel
  induction fuel with
  | zero => exact fun st h1 h2 => ⟨h1.trans h2, h2⟩
  | succ f ih =>
    intro st h1 h2
    rw [minresLoop_succ]
    by_cases hn : st.n < k
    · rw [if_pos hn]
      by_cases hbr : (minresStep sq A b pc st).residualNorm2 < th2
      · rw [if_pos hbr]
        refine ⟨?_, ?_⟩
        · rw [minresStep_bodyRuns]
          exact Nat.succ_le_of_lt (Nat.lt_of_le_of_lt h1 hn)
        · rw [minresStep_n]; exact Nat.le_of_lt hn
      · rw [if_neg hbr]
        refine ih _ ?_ ?_
        · rw [minresAdvance_bodyRuns, minresAdvance_n, minresStep_bodyRuns, minresStep_n]
          exact Nat.succ_le_succ h1
        · rw [minresAdvance_n, minresStep_n]
          exact Nat.succ_le_of_lt hn
    · rw [if_neg hn]
      exact ⟨h1.trans h2, h2⟩

/-- The loop preserves `residOK`. -/
theorem minresLoop_residOK {N : Nat} (sq : ℚ → ℚ) (A : Vec N → Vec N) (b : Vec N)
    (pc : Vec N → Vec N) (k : Nat) (th2 : ℚ) :
    ∀ (fuel : Nat) (st : MinresState N), residOK A b st →
      residOK A b (minresLoop sq A b pc k th2 fuel st) := by
  intro fuel
  induction fuel with
  | zero => exact fun st h => h
  | succ f ih =>
    intro st h
    rw [minresLoop_succ]
    by_cases hn : st.n < k
    · rw [if_pos hn]
      by_cases hbr : (minresStep sq A b pc st).residualNorm2 < th2
      · rw [if_pos hbr]; exact minresStep_residOK sq A b pc st
      · rw [if_neg hbr]
        exact ih _ (minresAdvance_residOK A b _ (minresStep_residOK sq A b pc st))
    · rw [if_neg hn]; exact h

/-! ### Claim theorems -/

/-- C1: the spec states that after `r1_hat = c*alpha - c_old*s*beta` and
`r1 = sqrt(r1_hat^2 + beta_new^2)`, the new rotation is `c = r1_hat / r1`,
`s = beta_new / r1`.  The code instead sets `s = beta / r1` (line 146), with
`beta` the Lanczos coefficient of the previous generation.  On
`A = diag(25,0)`, `b = (3,4)`, `x0 = 0`, identity preconditioner, the first
iteration has `beta = 5`, `beta_new = 12`, `r1_hat = 9`, `r1 = 15`, and the
code's new sine is `5/15 = 1/3`, not `beta_new/r1 = 12/15`. -/
theorem sine_update_uses_stale_beta :
    exRun0.final.beta = 5 ∧ exRun0.final.beta_new = 12 ∧
    exRun0.final.r1_hat = 9 ∧
    exRun0.final.r1 = ratSqrt (9 * 9 + 12 * 12) ∧ exRun0.final.r1 = 15 ∧
    exRun0.final.c = exRun0.final.r1_hat / exRun0.final.r1 ∧
    exRun0.final.s = exRun0.final.beta / exRun0.final.r1 ∧
    exRun0.final.s = 1 / 3 ∧
    exRun0.final.s ≠ exRun0.final.beta_new / exRun0.final.r1 := by decide

/-- C2: the spec's invariant `c² + s² = 1` for the Givens pair fails on the
code, since `r1 = sqrt(r1_hat² + beta_new²)` but `s = beta/r1`.  On the run
of `exRun0` the pair after the first iteration is `(3/5, 1/3)`, whose sum of
squares is `106/225 ≠ 1`. -/
theorem givens_pair_not_normalized :
    exRun0.final.c = 3 / 5 ∧ exRun0.final.s = 1 / 3 ∧
    exRun0.final.c * exRun0.final.c + exRun0.final.s * exRun0.final.s = 106 / 225 ∧
    (106 / 225 : ℚ) ≠ 1 := by decide

/-- C3: with `b = 0` the claim asks for an immediate return with zero
iterations and no division by zero.  The code instead computes
`beta_new = sqrt(0) = 0` during initialization and divides `v_new` and
`w_new` by it (lines 62-64), divides by `r1 = 0` and by `rhsNorm2 = 0`
later, and runs the full iteration budget: with `A = [1]`, `b = 0`,
`x0 = 0`, `maxIters = 1`, the division-by-zero flag is set and the returned
iteration count is `1`, not `0`. -/
theorem zero_rhs_divides_by_zero :
    zRun.divZero = true ∧ zRun.iters = 1 ∧ zRun.iters ≠ 0 := by decide

/-- C4 counterexample: in the first loop iteration on the concrete input of
`exRun0` the operator-application counter advances from `1` to `3`: the
operator is applied twice in one iteration (Lanczos step, line 104, and the
residual recomputation, line 157), not once. -/
theorem operator_applied_twice_cex :
    (minresInit ratSqrt exA exb (vzero 2) id exU0).matApplies = 1 ∧
    (minresStep ratSqrt exA exb id
      (minresInit ratSqrt exA exb (vzero 2) id exU0)).matApplies = 3 ∧
    (3 : Nat) ≠ 1 + 1 := by decide

/-- C4 amended: every execution of the loop body applies the linear
operator exactly twice — once in the Lanczos recurrence and once to
recompute the true residual — and calls the preconditioner solve exactly
once. -/
theorem step_operator_and_precond_call_counts {N : Nat} (sq : ℚ → ℚ)
    (A : Vec N → Vec N) (b : Vec N) (pc : Vec N → Vec N) (st : MinresState N) :
    (minresStep sq A b pc st).matApplies = st.matApplies + 2 ∧
    (minresStep sq A b pc st).precondSolves = st.precondSolves + 1 :=
  ⟨rfl, rfl⟩

/-- C5: for any call with iteration bound `k`, the loop body executes at
most `k` times, the returned iteration count is the final value of `n`, and
it is at most `k`. -/
theorem iteration_budget_respected {N : Nat} (sq : ℚ → ℚ) (A : Vec N → Vec N)
    (b x0 : Vec N) (pc : Vec N → Vec N) (u : Uninit N) (k : Nat) (tol : ℚ) :
    (minres sq A b x0 pc u k tol).final.bodyRuns ≤ k ∧
    (minres sq A b x0 pc u k tol).iters = (minres sq A b x0 pc u k tol).final.n ∧
    (minres sq A b x0 pc u k tol).iters ≤ k := by
  have h := minresLoop_bounds sq A b pc k (minresThreshold2 tol b) (k + 1)
    (minresInit sq A b x0 pc u) (Nat.le_refl 0) (Nat.zero_le k)
  exact ⟨h.1, rfl, h.2⟩

/-- C6: the loop body recomputes the true squared residual of the updated
`x` into `residualNorm2`; the loop breaks, without advancing `n`, exactly
when that value is below `threshold2 = tolerance² · ‖b‖²`; and the
`norm_rMR` estimate — merely rescaled by `|s|` each step — influences
nothing else: a step from a state with any other `norm_rMR` value differs
from the original step only in that field. -/
theorem termination_uses_recomputed_residual {N : Nat} (sq : ℚ → ℚ)
    (A : Vec N → Vec N) (b : Vec N) (pc : Vec N → Vec N) (k fuel : Nat)
    (tol m : ℚ) (st : MinresState N) :
    (minresStep sq A b pc st).residualNorm2
        = norm2 (vsub (A (minresStep sq A b pc st).x) b) ∧
    (minresStep sq A b pc st).n = st.n ∧
    minresStep sq A b pc { st with norm_rMR := m }
        = { minresStep sq A b pc st with
              norm_rMR := m * |(minresStep sq A b pc st).s| } ∧
    minresThreshold2 tol b = tol * tol * norm2 b ∧
    minresLoop sq A b pc k (minresThreshold2 tol b) (fuel + 1) st
      = if st.n < k then
          (if (minresStep sq A b pc st).residualNorm2 < minresThreshold2 tol b
           then minresStep sq A b pc st
           else minresLoop sq A b pc k (minresThreshold2 tol b) fuel
                  (minresAdvance (minresStep sq A b pc st)))
        else st := by
  refine ⟨rfl, rfl, ?_, rfl, minresLoop_succ sq A b pc k (minresThreshold2 tol b) fuel st⟩
  rfl

/-- C7: of the three direction vectors, only `p_old` and `p_oold` start at
zero; `p` (line 75) is never initialized and is read in the first iteration
(`p_old = p`, line 151, then multiplied by `r2 = beta ≠ 0`), so its
indeterminate value reaches the computed solution: on the input of
`exRun0`/`exRun1`, which differ only in the value read for the
uninitialized `p`, the first component of the one-iteration solution is
`3/125` when `p` reads as zero and `-22/125` when it reads as all ones. -/
theorem uninitialized_p_reaches_solution :
    (minresInit ratSqrt exA exb (vzero 2) id exU1).p_old = vzero 2 ∧
    (minresInit ratSqrt exA exb (vzero 2) id exU1).p_oold = vzero 2 ∧
    (minresInit ratSqrt exA exb (vzero 2) id exU1).p = exU1.p ∧
    exU1.p ≠ vzero 2 ∧
    exRun0.x 0 = 3 / 125 ∧ exRun1.x 0 = -22 / 125 ∧
    (3 / 125 : ℚ) ≠ -22 / 125 := by decide

/-- C8 counterexample: with a zero iteration budget the loop body never
runs, and `tol_error` is computed from the indeterminate `residualNorm2`:
on `b = (3,4)` with the indeterminate value reading as `1` the returned
error is `sqrt(1/25) = 1/5`, while the relative residual of the returned
`x = x0 = 0` is `1`. -/
theorem tol_error_zero_budget_cex :
    cRun.tol_error = 1 / 5 ∧
    ratSqrt (norm2 (vsub (exA cRun.x) exb) / norm2 exb) = 1 ∧
    (1 / 5 : ℚ) ≠ 1 := by decide

/-- C8 amended: whenever the iteration bound is at least one, the returned
`tol_error` is `sqrt(‖A x − b‖² / ‖b‖²)` for the returned solution `x`. -/
theorem tol_error_is_achieved_relative_residual {N : Nat} (sq : ℚ → ℚ)
    (A : Vec N → Vec N) (b x0 : Vec N) (pc : Vec N → Vec N) (u : Uninit N)
    (k : Nat) (tol : ℚ) (hk : 1 ≤ k) :
    (minres sq A b x0 pc u k tol).tol_error
      = sq (norm2 (vsub (A (minres sq A b x0 pc u k tol).x) b) / norm2 b) := by
  obtain ⟨j, rfl⟩ : ∃ j, k = j + 1 := ⟨k - 1, (Nat.succ_pred_eq_of_pos hk).symm⟩
  have hres : residOK A b
      (minresLoop sq A b pc (j + 1) (minresThreshold2 tol b) (j + 1 + 1)
        (minresInit sq A b x0 pc u)) := by
    rw [minresLoop_succ]
    rw [if_pos (show (minresInit sq A b x0 pc u).n < j + 1 from Nat.succ_pos j)]
    by_cases hbr : (minresStep sq A b pc (minresInit sq A b x0 pc u)).residualNorm2
        < minresThreshold2 tol b
    · rw [if_pos hbr]; exact minresStep_residOK sq A b pc _
    · rw [if_neg hbr]
      exact minresLoop_residOK sq A b pc (j + 1) (minresThreshold2 tol b) (j + 1) _
        (minresAdvance_residOK A b _ (minresStep_residOK sq A b pc _))
  show sq ((minresLoop sq A b pc (j + 1) (minresThreshold2 tol b) (j + 1 + 1)
      (minresInit sq A b x0 pc u)).residualNorm2 / norm2 b) = _
  rw [hres]
  rfl

/-- C8 witness: the amended statement at the concrete one-iteration run. -/
theorem tol_error_is_achieved_relative_residual_witness :
    (1 : Nat) ≤ 1 ∧
    (minres ratSqrt exA exb (vzero 2) id exU0 1 0).tol_error
      = ratSqrt (norm2 (vsub (exA (minres ratSqrt exA exb (vzero 2) id exU0 1 0).x) exb)
          / norm2 exb) :=
  ⟨Nat.le_refl 1,
    tol_error_is_achieved_relative_residual ratSqrt exA exb (vzero 2) id exU0 1 0
      (Nat.le_refl 1)⟩

/-- C9: with an iteration bound of zero the loop never runs, the solution
comes back as the untouched initial guess with an iteration count of zero,
and the returned error estimate is `sqrt` of the indeterminate value of the
never-assigned `residualNorm2` divided by `‖b‖²` — an arbitrary quantity,
not the relative residual of `x0`. -/
theorem zero_budget_reports_garbage_error {N : Nat} (sq : ℚ → ℚ)
    (A : Vec N → Vec N) (b x0 : Vec N) (pc : Vec N → Vec N) (u : Uninit N)
    (tol : ℚ) :
    (minres sq A b x0 pc u 0 tol).iters = 0 ∧
    (minres sq A b x0 pc u 0 tol).x = x0 ∧
    (minres sq A b x0 pc u 0 tol).tol_error = sq (u.residualNorm2 / norm2 b) :=
  ⟨rfl, rfl, rfl⟩

/-- C10: the guess-free solve path sets every component of the initial
guess to one before delegating to the kernel. -/
theorem default_initial_guess_is_ones {N : Nat} (sq : ℚ → ℚ)
    (A : Vec N → Vec N) (pc : Vec N → Vec N) (u : Uninit N) (k : Nat)
    (tol : ℚ) (b : Vec N) :
    minresSolve sq A pc u k tol b = minres sq A b (setOnes N) pc u k tol ∧
    ∀ i : Fin N, setOnes N i = 1 :=
  ⟨rfl, fun _ => rfl⟩
